import Mathlib

/-
Verification of the score-estimation and weighted-aggregation pipeline of
GPA-Calculator-For-SEUer (src/main.py).

Modelling conventions (shallow embedding):
* Python `float` values are modelled by `PyFloat`: an exact rational, or one of
  the non-finite values nan / +inf / -inf.  Comparisons and arithmetic follow
  IEEE-754 semantics on these constructors (every comparison involving nan is
  false; inf + (-inf) = nan; inf * 0 = nan; ...).  Binary64 rounding, overflow
  of huge decimal literals to infinity, signed zero, and PEP-515 digit-group
  underscores are not modelled: all finite arithmetic is exact rational
  arithmetic.
* Python `str` is modelled as `List Char` (a Python string is a sequence of
  code points, as is `List Char`); `str.strip()` / `str.lower()` are modelled
  for the ASCII range plus the concrete Chinese tokens appearing in the code
  (Python's Unicode-aware stripping/lowering coincides with this model on
  every string the claims mention).
* A JSON row (Python `dict`) is modelled as a function `String → Option JVal`,
  mirroring `dict.get` returning `None` for an absent key; a JSON `null` value
  is likewise modelled as `none` (Python maps it to `None`, and every use site
  treats `None` uniformly).
* `float(x)` applied to a string follows CPython's accepted grammar:
  optional sign, then `inf` / `infinity` / `nan` (case-insensitive) or a
  decimal literal `digits [. digits] [e sign digits]`, after stripping
  whitespace.  A failing conversion (`ValueError` / `TypeError`) is `none`.
-/

/-- Model of a Python `float`: exact rational, or a non-finite IEEE value. -/
inductive PyFloat where
  | finite (q : ℚ)
  | nan
  | inf
  | ninf
deriving DecidableEq

namespace PyFloat

/-- Python `x <= y` on floats (any comparison with nan is false). -/
def le : PyFloat → PyFloat → Bool
  | .finite a, .finite b => decide (a ≤ b)
  | .nan, _ => false
  | _, .nan => false
  | .ninf, _ => true
  | _, .inf => true
  | _, _ => false

/-- Python `x < y` on floats (any comparison with nan is false). -/
def lt : PyFloat → PyFloat → Bool
  | .finite a, .finite b => decide (a < b)
  | .nan, _ => false
  | _, .nan => false
  | .ninf, .ninf => false
  | .ninf, _ => true
  | .inf, _ => false
  | _, .inf => true
  | _, _ => false

/-- Python `x + y` on floats. -/
def add : PyFloat → PyFloat → PyFloat
  | .finite a, .finite b => .finite (a + b)
  | .nan, _ => .nan
  | _, .nan => .nan
  | .inf, .ninf => .nan
  | .ninf, .inf => .nan
  | .inf, _ => .inf
  | _, .inf => .inf
  | .ninf, _ => .ninf
  | _, .ninf => .ninf

/-- Python `x * y` on floats. -/
def mul : PyFloat → PyFloat → PyFloat
  | .finite a, .finite b => .finite (a * b)
  | .nan, _ => .nan
  | _, .nan => .nan
  | .inf, .inf => .inf
  | .ninf, .ninf => .inf
  | .inf, .ninf => .ninf
  | .ninf, .inf => .ninf
  | .inf, .finite q => if q = 0 then .nan else if 0 < q then .inf else .ninf
  | .finite q, .inf => if q = 0 then .nan else if 0 < q then .inf else .ninf
  | .ninf, .finite q => if q = 0 then .nan else if 0 < q then .ninf else .inf
  | .finite q, .ninf => if q = 0 then .nan else if 0 < q then .ninf else .inf

/-- Python `x / y` on floats.  Division by the float zero raises
`ZeroDivisionError` in Python; every division in the translated code is
guarded so that the divisor is never the finite zero, and that unreachable
case is mapped to `nan` here. -/
def div : PyFloat → PyFloat → PyFloat
  | .nan, _ => .nan
  | _, .nan => .nan
  | .finite a, .finite b => if b = 0 then .nan else .finite (a / b)
  | .finite _, .inf => .finite 0
  | .finite _, .ninf => .finite 0
  | .inf, .finite q => if q = 0 then .nan else if 0 < q then .inf else .ninf
  | .ninf, .finite q => if q = 0 then .nan else if 0 < q then .ninf else .inf
  | .inf, _ => .nan
  | .ninf, _ => .nan

/-- Python truthiness of a float: `bool(x)` is `False` exactly for zero
(nan and the infinities are truthy). -/
def truthy (x : PyFloat) : Bool := decide (x ≠ .finite 0)

instance : Add PyFloat := ⟨PyFloat.add⟩
instance : Mul PyFloat := ⟨PyFloat.mul⟩

end PyFloat

/-- A JSON scalar value as it reaches the row dictionaries: a string or a
number (JSON `null` and an absent key are both modelled as `none` at the
`Option JVal` level). -/
inductive JVal where
  | s (v : String)
  | n (v : PyFloat)
deriving DecidableEq

/-- A transcript row: a dictionary from field name to value, mirroring
Python `row.get(key)`. -/
def Row : Type := String → Option JVal

/-- Whitespace characters stripped by `str.strip()` / `float()` (ASCII range;
Unicode-only whitespace is not modelled). -/
def isPySpace (c : Char) : Bool :=
  c = ' ' ∨ c = '\t' ∨ c = '\n' ∨ c = '\r' ∨ c = '\x0b' ∨ c = '\x0c'

/-- `str.strip()` on a list of characters. -/
def pyStrip (l : List Char) : List Char :=
  ((l.dropWhile isPySpace).reverse.dropWhile isPySpace).reverse

/-- `str.lower()` per character (ASCII range; the Chinese tokens in the code
are unaffected by lowering, as in Python). -/
def pyLowerChar (c : Char) : Char :=
  if 'A' ≤ c ∧ c ≤ 'Z' then Char.ofNat (c.toNat + 32) else c

/-- `str.lower()` on a list of characters. -/
def pyLower (l : List Char) : List Char := l.map pyLowerChar

/-- Split a list at the first character satisfying `p`, dropping it. -/
def splitFirst (p : Char → Bool) : List Char → Option (List Char × List Char)
  | [] => none
  | c :: rest =>
    if p c then some ([], rest)
    else (splitFirst p rest).map (fun q => (c :: q.1, q.2))

/-- Value of a non-empty all-digit character list. -/
def digitsVal (l : List Char) : Option ℕ :=
  if l ≠ [] ∧ l.all Char.isDigit then
    some (l.foldl (fun n c => 10 * n + (c.toNat - 48)) 0)
  else none

/-- Parse the mantissa part of a Python float literal:
`digits`, `digits.`, `digits.digits` or `.digits`. -/
def parseMantissa (l : List Char) : Option ℚ :=
  match splitFirst (fun c => c = '.') l with
  | none => (digitsVal l).map (fun n => (n : ℚ))
  | some q =>
    let ip := q.1
    let fp := q.2
    if (ip ≠ [] ∨ fp ≠ []) ∧ ip.all Char.isDigit ∧ fp.all Char.isDigit then
      some ((((digitsVal ip).getD 0 : ℕ) : ℚ) +
            (((digitsVal fp).getD 0 : ℕ) : ℚ) / (10 : ℚ) ^ fp.length)
    else none

/-- Strip one leading sign, returning whether it was a minus. -/
def stripSign : List Char → Bool × List Char
  | '+' :: r => (false, r)
  | '-' :: r => (true, r)
  | l => (false, l)

/-- Parse the exponent part of a Python float literal: optional sign then
digits. -/
def parseExp (l : List Char) : Option ℤ :=
  let p := stripSign l
  (digitsVal p.2).map (fun n => if p.1 then -(n : ℤ) else (n : ℤ))

/-- CPython `float(string)`: strip whitespace, optional sign, then
`inf`/`infinity`/`nan` (case-insensitive) or a decimal literal with an
optional exponent. -/
def pyParseFloat (t : List Char) : Option PyFloat :=
  let l := pyStrip t
  let sg := stripSign l
  let body := sg.2
  let low := pyLower body
  if low = "inf".toList ∨ low = "infinity".toList then
    some (if sg.1 then .ninf else .inf)
  else if low = "nan".toList then some .nan
  else
    match splitFirst (fun c => c = 'e' ∨ c = 'E') body with
    | none =>
      (parseMantissa body).map (fun m => .finite (if sg.1 then -m else m))
    | some q =>
      match parseMantissa q.1, parseExp q.2 with
      | some m, some e =>
        some (.finite ((if sg.1 then -m else m) * (10 : ℚ) ^ e))
      | _, _ => none

/-- Python `float(x)` on a dictionary value: raises (= `none`) on `None`,
is the identity on floats, and parses strings. -/
def pyFloatOfValue : Option JVal → Option PyFloat
  | none => none
  | some (.n v) => some v
  | some (.s t) => pyParseFloat t.toList

/-- `GRADE_MAP` from src/main.py: the five grade labels and their canonical
numeric values. -/
def GRADE_MAP : List (String × ℚ) :=
  [("优", 95), ("良", 85), ("中", 75), ("及格", 65), ("不及格", 55)]

/-- `GRADE_MAP.get(s)` on an already-stripped character list. -/
def gradeLookup (s : List Char) : Option ℚ :=
  (GRADE_MAP.find? (fun p => p.1.toList == s)).map (fun p => p.2)

/-- The sentinel tokens rejected by `parse_float_safe` (compared after
lowering): the pending-evaluation marker, "na" and "n/a". -/
def SENTINELS : List (List Char) := ["待评教".toList, "na".toList, "n/a".toList]

/-- `parse_float_safe` from src/main.py.  `str(x)` on a float round-trips
through `float` exactly in Python (`float(str(x)) == x`, and the textual form
of a float is never empty nor a sentinel token), so the float case returns the
value unchanged. -/
def parse_float_safe (x : Option JVal) : Option PyFloat :=
  match x with
  | none => none
  | some (.n v) => some v
  | some (.s t) =>
    let s := pyStrip t.toList
    if s = [] ∨ pyLower s ∈ SENTINELS then none
    else pyParseFloat s

/-- Diagnostic message of the score resolver, one constructor per f-string
produced by `estimate_zcj_from_row` (messages are diagnostic only and never
used in computation). -/
inductive Reason where
  | presentNumeric
  | gradeLabel
  | missingWeight (weight_key score_key : String)
  | noComponents
  | zeroWeight
  | estimated (total_weight : PyFloat)
deriving DecidableEq

/-- `comp_names` from `estimate_zcj_from_row`: the three (score field,
weight field) component pairs. -/
def comp_names : List (String × String) :=
  [("QMCJ", "QMCJXS"), ("PSCJ", "PSCJXS"), ("QZCJ", "QZCJXS")]

/-- Outcome of the component-scanning loop: either an early return because a
present score lacks a parseable weight, or the accumulated sums. -/
inductive ScanOut where
  | missing (score_key weight_key : String)
  | done (weighted_sum total_weight : PyFloat) (have_any : Bool)
deriving DecidableEq

/-- The `for score_key, weight_key in comp_names` loop of
`estimate_zcj_from_row`: skip pairs whose score does not parse, return early
when a present score has an unparseable weight, otherwise accumulate
`weighted_sum += s*w` and `total_weight += w`. -/
def compScan (row : Row) :
    List (String × String) → PyFloat → PyFloat → Bool → ScanOut
  | [], wsum, wtot, hav => .done wsum wtot hav
  | (sk, wk) :: rest, wsum, wtot, hav =>
    match parse_float_safe (row sk) with
    | none => compScan row rest wsum wtot hav
    | some s =>
      match parse_float_safe (row wk) with
      | none => .missing sk wk
      | some w => compScan row rest (wsum + s * w) (wtot + w) true

/-- The component-reconstruction tail of `estimate_zcj_from_row` (reached when
the authoritative field is neither numeric nor a grade label). -/
def estimateComponents (row : Row) : Option PyFloat × Bool × Reason :=
  match compScan row comp_names (.finite 0) (.finite 0) false with
  | .missing sk wk => (none, true, .missingWeight wk sk)
  | .done wsum wtot hav =>
    if hav = false then (none, true, .noComponents)
    else if PyFloat.le wtot (.finite 0) then (none, true, .zeroWeight)
    else (some (PyFloat.div wsum wtot), true, .estimated wtot)

/-- `estimate_zcj_from_row` from src/main.py: authoritative numeric value
first, then grade-label mapping, then reconstruction from components. -/
def estimate_zcj_from_row (row : Row) : Option PyFloat × Bool × Reason :=
  match parse_float_safe (row "ZCJ") with
  | some v => (some v, false, .presentNumeric)
  | none =>
    match row "ZCJ" with
    | some (.s t) =>
      match gradeLookup (pyStrip t.toList) with
      | some g => (some (.finite g), false, .gradeLabel)
      | none => estimateComponents row
    | _ => estimateComponents row

/-- A ResolvedCourse: the dictionary appended by `extract_official_courses`. -/
structure Course where
  name : Option JVal
  type : Option JVal
  score : PyFloat
  credit : PyFloat
  estimated : Bool
  estimate_reason : Reason
deriving DecidableEq

/-- One iteration of the `extract_official_courses` loop: `none` when the row
is skipped by a `continue`, otherwise the appended course. -/
def officialOfRow (r : Row) : Option Course :=
  if r "KCXZDM_DISPLAY" = some (.s "必修") ∨ r "KCXZDM_DISPLAY" = some (.s "限选") then
    match pyFloatOfValue (r "XF") with
    | none => none
    | some credit =>
      if PyFloat.le credit (.finite 0) then none
      else
        match estimate_zcj_from_row r with
        | (some score, is_est, msg) =>
          some ⟨r "XSKCM", r "KCXZDM_DISPLAY", score, credit, is_est, msg⟩
        | (none, _, _) => none
  else none

/-- `extract_official_courses` from src/main.py (the append-or-continue loop
is a `filterMap`). -/
def extract_official_courses (rows : List Row) : List Course :=
  rows.filterMap officialOfRow

/-- Credit-weighted score sum of `weighted_avg`:
`sum(c["score"] * c["credit"] for c in courses)` (Python `sum` starts from 0
and folds left). -/
def scoreCreditSum (courses : List Course) : PyFloat :=
  courses.foldl (fun acc c => acc + c.score * c.credit) (.finite 0)

/-- Total credit sum of `weighted_avg`: `sum(c["credit"] for c in courses)`. -/
def creditSum (courses : List Course) : PyFloat :=
  courses.foldl (fun acc c => acc + c.credit) (.finite 0)

/-- `weighted_avg` from src/main.py: `s / w if w else None`. -/
def weighted_avg (courses : List Course) : Option PyFloat :=
  if PyFloat.truthy (creditSum courses) then
    some (PyFloat.div (scoreCreditSum courses) (creditSum courses))
  else none

/-- `score_to_gpa` from src/main.py: the fixed 100-scale → 4.0-scale
breakpoint chain, evaluated highest threshold first. -/
def score_to_gpa (score : PyFloat) : ℚ :=
  if PyFloat.le (.finite 93) score then 4
  else if PyFloat.le (.finite 90) score then 37/10
  else if PyFloat.le (.finite 87) score then 33/10
  else if PyFloat.le (.finite 83) score then 3
  else if PyFloat.le (.finite 80) score then 27/10
  else if PyFloat.le (.finite 77) score then 23/10
  else if PyFloat.le (.finite 73) score then 2
  else if PyFloat.le (.finite 70) score then 17/10
  else if PyFloat.le (.finite 67) score then 13/10
  else if PyFloat.le (.finite 63) score then 1
  else 0

/-- `weighted_gpa_4` from src/main.py: credit-weighted mean of
`score_to_gpa`, same zero-credit-to-`None` rule as `weighted_avg`. -/
def weighted_gpa_4 (courses : List Course) : Option PyFloat :=
  let total := courses.foldl
    (fun acc c => acc + PyFloat.finite (score_to_gpa c.score) * c.credit)
    (.finite 0)
  let w := courses.foldl (fun acc c => acc + c.credit) (.finite 0)
  if PyFloat.truthy w then some (PyFloat.div total w) else none

/-- Scanner state of `extract_json_objects`: collected objects, current brace
depth, and the start index of the object being scanned (when any). -/
structure EState where
  objs : List (List Char)
  brace : ℤ
  start : Option ℕ
deriving DecidableEq

/-- One character step of `extract_json_objects` at index `i`:
on an opening brace at depth 0 record the start index and increment the depth;
on a closing brace decrement the depth and, if it returned to 0 with a
recorded start, emit the slice `text[start : i+1]`. -/
def extractStep (text : List Char) (st : EState) (ic : ℕ × Char) : EState :=
  if ic.2 = '\x7b' then
    if st.brace = 0 then ⟨st.objs, st.brace + 1, some ic.1⟩
    else ⟨st.objs, st.brace + 1, st.start⟩
  else if ic.2 = '\x7d' then
    match st.start with
    | some s0 =>
      if st.brace - 1 = 0 then
        ⟨st.objs ++ [(text.drop s0).take (ic.1 + 1 - s0)], st.brace - 1, none⟩
      else ⟨st.objs, st.brace - 1, st.start⟩
    | none => ⟨st.objs, st.brace - 1, none⟩
  else st

/-- `extract_json_objects` from src/main.py, over the text as a character
list: a single left-to-right scan with a brace-depth counter. -/
def extract_json_objects (text : List Char) : List (List Char) :=
  (text.enum.foldl (extractStep text) ⟨[], 0, none⟩).objs

/-- Brace-depth delta contributed by a character list: +1 per opening brace,
-1 per closing brace. -/
def net : List Char → ℤ
  | [] => 0
  | c :: l =>
    (if c = '\x7b' then 1 else if c = '\x7d' then -1 else 0) + net l

/-- A balanced top-level brace block: starts with an opening brace, has total
depth delta zero, and every non-empty proper prefix has positive depth delta
(so the block closes exactly at its last character). -/
def IsBlock (t : List Char) : Prop :=
  t.head? = some '\x7b' ∧ net t = 0 ∧
    ∀ p ∈ t.inits, p ≠ [] → p ≠ t → 1 ≤ net p

instance : DecidablePred IsBlock := fun t => by
  unfold IsBlock; infer_instance

/-- Text containing no brace characters. -/
def BraceFree (l : List Char) : Prop :=
  ∀ c ∈ l, c ≠ '\x7b' ∧ c ≠ '\x7d'

instance : DecidablePred BraceFree := fun l => by
  unfold BraceFree; infer_instance

/-
Spec-side reference definitions (written from the specification's wording,
for comparison with the translated code above).
-/

/-- Spec-side: the sum `Σ score*weight` over the component pairs of `l` whose
score and weight both parse, as a plain fold (no early abort), from a given
initial accumulator. -/
def specWeightedSumFrom (row : Row) (init : PyFloat)
    (l : List (String × String)) : PyFloat :=
  l.foldl
    (fun acc p =>
      match parse_float_safe (row p.1), parse_float_safe (row p.2) with
      | some s, some w => acc + s * w
      | _, _ => acc)
    init

/-- Spec-side: the sum `Σ weight` over the component pairs of `l` whose score
and weight both parse, as a plain fold (no early abort), from a given initial
accumulator. -/
def specTotalWeightFrom (row : Row) (init : PyFloat)
    (l : List (String × String)) : PyFloat :=
  l.foldl
    (fun acc p =>
      match parse_float_safe (row p.1), parse_float_safe (row p.2) with
      | some _, some w => acc + w
      | _, _ => acc)
    init

/-- Spec-side: the claim's `weighted_sum` over the three component pairs. -/
def specWeightedSum (row : Row) : PyFloat :=
  specWeightedSumFrom row (.finite 0) comp_names

/-- Spec-side: the claim's `total_weight` over the three component pairs. -/
def specTotalWeight (row : Row) : PyFloat :=
  specTotalWeightFrom row (.finite 0) comp_names

/-- Spec-side: the claim's strict "Official" inclusion condition — category is
one of the two enrollment labels, the credit field parses to a value strictly
greater than 0, and the resolver returns a non-null score. -/
def officialSpecStrict (r : Row) : Prop :=
  (r "KCXZDM_DISPLAY" = some (.s "必修") ∨ r "KCXZDM_DISPLAY" = some (.s "限选")) ∧
  (∃ v, pyFloatOfValue (r "XF") = some v ∧ PyFloat.lt (.finite 0) v = true) ∧
  (estimate_zcj_from_row r).1.isSome

/-- The "Official" inclusion condition as the code actually checks it: the
credit comparison is `not (credit <= 0)` under float ordering, which a NaN
credit passes. -/
def officialSpecAmended (r : Row) : Prop :=
  (r "KCXZDM_DISPLAY" = some (.s "必修") ∨ r "KCXZDM_DISPLAY" = some (.s "限选")) ∧
  (∃ v, pyFloatOfValue (r "XF") = some v ∧ PyFloat.le v (.finite 0) = false) ∧
  (estimate_zcj_from_row r).1.isSome

/-- Spec-side: the GPA breakpoint table as explicit data, highest threshold
first. -/
def gpaTable : List (ℚ × ℚ) :=
  [(93, 4), (90, 37/10), (87, 33/10), (83, 3), (80, 27/10),
   (77, 23/10), (73, 2), (70, 17/10), (67, 13/10), (63, 1)]

/-- Spec-side: evaluate the breakpoint table — the value of the first
threshold not exceeding the score, else 0. -/
def gpaFromTable (score : PyFloat) : ℚ :=
  match gpaTable.find? (fun p => PyFloat.le (.finite p.1) score) with
  | some p => p.2
  | none => 0

/-- The eleven possible grade-point values. -/
def gpaValues : List ℚ :=
  [0, 1, 13/10, 17/10, 2, 23/10, 27/10, 3, 33/10, 37/10, 4]

/-
Helper lemmas.
-/

@[simp] theorem PyFloat.finite_add (a b : ℚ) :
    (PyFloat.finite a) + (PyFloat.finite b) = .finite (a + b) := rfl

@[simp] theorem PyFloat.finite_mul (a b : ℚ) :
    (PyFloat.finite a) * (PyFloat.finite b) = .finite (a * b) := rfl

/-- The breakpoint chain of `score_to_gpa` on a finite score, with the float
comparisons reduced to rational comparisons. -/
def gpaQ (q : ℚ) : ℚ :=
  if 93 ≤ q then 4
  else if 90 ≤ q then 37/10
  else if 87 ≤ q then 33/10
  else if 83 ≤ q then 3
  else if 80 ≤ q then 27/10
  else if 77 ≤ q then 23/10
  else if 73 ≤ q then 2
  else if 70 ≤ q then 17/10
  else if 67 ≤ q then 13/10
  else if 63 ≤ q then 1
  else 0

theorem score_to_gpa_finite (q : ℚ) : score_to_gpa (.finite q) = gpaQ q := by
  simp only [score_to_gpa, gpaQ, PyFloat.le, decide_eq_true_eq]

/-- Exhaustive interval analysis of the breakpoint chain. -/
theorem gpaQ_cases (q : ℚ) :
    (93 ≤ q ∧ gpaQ q = 4) ∨
    (90 ≤ q ∧ q < 93 ∧ gpaQ q = 37/10) ∨
    (87 ≤ q ∧ q < 90 ∧ gpaQ q = 33/10) ∨
    (83 ≤ q ∧ q < 87 ∧ gpaQ q = 3) ∨
    (80 ≤ q ∧ q < 83 ∧ gpaQ q = 27/10) ∨
    (77 ≤ q ∧ q < 80 ∧ gpaQ q = 23/10) ∨
    (73 ≤ q ∧ q < 77 ∧ gpaQ q = 2) ∨
    (70 ≤ q ∧ q < 73 ∧ gpaQ q = 17/10) ∨
    (67 ≤ q ∧ q < 70 ∧ gpaQ q = 13/10) ∨
    (63 ≤ q ∧ q < 67 ∧ gpaQ q = 1) ∨
    (q < 63 ∧ gpaQ q = 0) := by
  rcases le_or_lt 93 q with h1 | h1
  · exact Or.inl ⟨h1, by unfold gpaQ; rw [if_pos h1]⟩
  rcases le_or_lt 90 q with h2 | h2
  · refine Or.inr (Or.inl ⟨h2, h1, ?_⟩)
    unfold gpaQ
    rw [if_neg (not_le.mpr h1), if_pos h2]
  rcases le_or_lt 87 q with h3 | h3
  · refine Or.inr (Or.inr (Or.inl ⟨h3, h2, ?_⟩))
    unfold gpaQ
    rw [if_neg (not_le.mpr h1), if_neg (not_le.mpr h2), if_pos h3]
  rcases le_or_lt 83 q with h4 | h4
  · refine Or.inr (Or.inr (Or.inr (Or.inl ⟨h4, h3, ?_⟩)))
    unfold gpaQ
    rw [if_neg (not_le.mpr h1), if_neg (not_le.mpr h2), if_neg (not_le.mpr h3),
        if_pos h4]
  rcases le_or_lt 80 q with h5 | h5
  · refine Or.inr (Or.inr (Or.inr (Or.inr (Or.inl ⟨h5, h4, ?_⟩))))
    unfold gpaQ
    rw [if_neg (not_le.mpr h1), if_neg (not_le.mpr h2), if_neg (not_le.mpr h3),
        if_neg (not_le.mpr h4), if_pos h5]
  rcases le_or_lt 77 q with h6 | h6
  · refine Or.inr (Or.inr (Or.inr (Or.inr (Or.inr (Or.inl ⟨h6, h5, ?_⟩)))))
    unfold gpaQ
    rw [if_neg (not_le.mpr h1), if_neg (not_le.mpr h2), if_neg (not_le.mpr h3),
        if_neg (not_le.mpr h4), if_neg (not_le.mpr h5), if_pos h6]
  rcases le_or_lt 73 q with h7 | h7
  · refine Or.inr (Or.inr (Or.inr (Or.inr (Or.inr (Or.inr (Or.inl ⟨h7, h6, ?_⟩))))))
    unfold gpaQ
    rw [if_neg (not_le.mpr h1), if_neg (not_le.mpr h2), if_neg (not_le.mpr h3),
        if_neg (not_le.mpr h4), if_neg (not_le.mpr h5), if_neg (not_le.mpr h6),
        if_pos h7]
  rcases le_or_lt 70 q with h8 | h8
  · refine Or.inr (Or.inr (Or.inr (Or.inr (Or.inr (Or.inr (Or.inr (Or.inl
      ⟨h8, h7, ?_⟩)))))))
    unfold gpaQ
    rw [if_neg (not_le.mpr h1), if_neg (not_le.mpr h2), if_neg (not_le.mpr h3),
        if_neg (not_le.mpr h4), if_neg (not_le.mpr h5), if_neg (not_le.mpr h6),
        if_neg (not_le.mpr h7), if_pos h8]
  rcases le_or_lt 67 q with h9 | h9
  · refine Or.inr (Or.inr (Or.inr (Or.inr (Or.inr (Or.inr (Or.inr (Or.inr (Or.inl
      ⟨h9, h8, ?_⟩))))))))
    unfold gpaQ
    rw [if_neg (not_le.mpr h1), if_neg (not_le.mpr h2), if_neg (not_le.mpr h3),
        if_neg (not_le.mpr h4), if_neg (not_le.mpr h5), if_neg (not_le.mpr h6),
        if_neg (not_le.mpr h7), if_neg (not_le.mpr h8), if_pos h9]
  rcases le_or_lt 63 q with h10 | h10
  · refine Or.inr (Or.inr (Or.inr (Or.inr (Or.inr (Or.inr (Or.inr (Or.inr (Or.inr
      (Or.inl ⟨h10, h9, ?_⟩)))))))))
    unfold gpaQ
    rw [if_neg (not_le.mpr h1), if_neg (not_le.mpr h2), if_neg (not_le.mpr h3),
        if_neg (not_le.mpr h4), if_neg (not_le.mpr h5), if_neg (not_le.mpr h6),
        if_neg (not_le.mpr h7), if_neg (not_le.mpr h8), if_neg (not_le.mpr h9),
        if_pos h10]
  · refine Or.inr (Or.inr (Or.inr (Or.inr (Or.inr (Or.inr (Or.inr (Or.inr (Or.inr
      (Or.inr ⟨h10, ?_⟩)))))))))
    unfold gpaQ
    rw [if_neg (not_le.mpr h1), if_neg (not_le.mpr h2), if_neg (not_le.mpr h3),
        if_neg (not_le.mpr h4), if_neg (not_le.mpr h5), if_neg (not_le.mpr h6),
        if_neg (not_le.mpr h7), if_neg (not_le.mpr h8), if_neg (not_le.mpr h9),
        if_neg (not_le.mpr h10)]

theorem gpaQ_le_4 (q : ℚ) : gpaQ q ≤ 4 := by
  rcases gpaQ_cases q with ⟨_, e⟩ | ⟨_, _, e⟩ | ⟨_, _, e⟩ | ⟨_, _, e⟩ | ⟨_, _, e⟩ |
    ⟨_, _, e⟩ | ⟨_, _, e⟩ | ⟨_, _, e⟩ | ⟨_, _, e⟩ | ⟨_, _, e⟩ | ⟨_, e⟩ <;>
    rw [e] <;> norm_num

theorem gpaQ_ub37 (q : ℚ) (h : q < 93) : gpaQ q ≤ 37/10 := by
  rcases gpaQ_cases q with ⟨hc, e⟩ | ⟨_, _, e⟩ | ⟨_, _, e⟩ | ⟨_, _, e⟩ | ⟨_, _, e⟩ |
    ⟨_, _, e⟩ | ⟨_, _, e⟩ | ⟨_, _, e⟩ | ⟨_, _, e⟩ | ⟨_, _, e⟩ | ⟨_, e⟩
  · exact absurd (hc.trans_lt h) (by norm_num)
  all_goals rw [e]
  all_goals norm_num

theorem gpaQ_ub33 (q : ℚ) (h : q < 90) : gpaQ q ≤ 33/10 := by
  rcases gpaQ_cases q with ⟨hc, e⟩ | ⟨hc, _, e⟩ | ⟨_, _, e⟩ | ⟨_, _, e⟩ | ⟨_, _, e⟩ |
    ⟨_, _, e⟩ | ⟨_, _, e⟩ | ⟨_, _, e⟩ | ⟨_, _, e⟩ | ⟨_, _, e⟩ | ⟨_, e⟩
  · exact absurd (hc.trans_lt h) (by norm_num)
  · exact absurd (hc.trans_lt h) (by norm_num)
  all_goals rw [e]
  all_goals norm_num

theorem gpaQ_ub3 (q : ℚ) (h : q < 87) : gpaQ q ≤ 3 := by
  rcases gpaQ_cases q with ⟨hc, e⟩ | ⟨hc, _, e⟩ | ⟨hc, _, e⟩ | ⟨_, _, e⟩ | ⟨_, _, e⟩ |
    ⟨_, _, e⟩ | ⟨_, _, e⟩ | ⟨_, _, e⟩ | ⟨_, _, e⟩ | ⟨_, _, e⟩ | ⟨_, e⟩
  · exact absurd (hc.trans_lt h) (by norm_num)
  · exact absurd (hc.trans_lt h) (by norm_num)
  · exact absurd (hc.trans_lt h) (by norm_num)
  all_goals rw [e]
  all_goals norm_num

theorem gpaQ_ub27 (q : ℚ) (h : q < 83) : gpaQ q ≤ 27/10 := by
  rcases gpaQ_cases q with ⟨hc, e⟩ | ⟨hc, _, e⟩ | ⟨hc, _, e⟩ | ⟨hc, _, e⟩ | ⟨_, _, e⟩ |
    ⟨_, _, e⟩ | ⟨_, _, e⟩ | ⟨_, _, e⟩ | ⟨_, _, e⟩ | ⟨_, _, e⟩ | ⟨_, e⟩
  · exact absurd (hc.trans_lt h) (by norm_num)
  · exact absurd (hc.trans_lt h) (by norm_num)
  · exact absurd (hc.trans_lt h) (by norm_num)
  · exact absurd (hc.trans_lt h) (by norm_num)
  all_goals rw [e]
  all_goals norm_num

theorem gpaQ_ub23 (q : ℚ) (h : q < 80) : gpaQ q ≤ 23/10 := by
  rcases gpaQ_cases q with ⟨hc, e⟩ | ⟨hc, _, e⟩ | ⟨hc, _, e⟩ | ⟨hc, _, e⟩ | ⟨hc, _, e⟩ |
    ⟨_, _, e⟩ | ⟨_, _, e⟩ | ⟨_, _, e⟩ | ⟨_, _, e⟩ | ⟨_, _, e⟩ | ⟨_, e⟩
  · exact absurd (hc.trans_lt h) (by norm_num)
  · exact absurd (hc.trans_lt h) (by norm_num)
  · exact absurd (hc.trans_lt h) (by norm_num)
  · exact absurd (hc.trans_lt h) (by norm_num)
  · exact absurd (hc.trans_lt h) (by norm_num)
  all_goals rw [e]
  all_goals norm_num

theorem gpaQ_ub2 (q : ℚ) (h : q < 77) : gpaQ q ≤ 2 := by
  rcases gpaQ_cases q with ⟨hc, e⟩ | ⟨hc, _, e⟩ | ⟨hc, _, e⟩ | ⟨hc, _, e⟩ | ⟨hc, _, e⟩ |
    ⟨hc, _, e⟩ | ⟨_, _, e⟩ | ⟨_, _, e⟩ | ⟨_, _, e⟩ | ⟨_, _, e⟩ | ⟨_, e⟩
  · exact absurd (hc.trans_lt h) (by norm_num)
  · exact absurd (hc.trans_lt h) (by norm_num)
  · exact absurd (hc.trans_lt h) (by norm_num)
  · exact absurd (hc.trans_lt h) (by norm_num)
  · exact absurd (hc.trans_lt h) (by norm_num)
  · exact absurd (hc.trans_lt h) (by norm_num)
  all_goals rw [e]
  all_goals norm_num

theorem gpaQ_ub17 (q : ℚ) (h : q < 73) : gpaQ q ≤ 17/10 := by
  rcases gpaQ_cases q with ⟨hc, e⟩ | ⟨hc, _, e⟩ | ⟨hc, _, e⟩ | ⟨hc, _, e⟩ | ⟨hc, _, e⟩ |
    ⟨hc, _, e⟩ | ⟨hc, _, e⟩ | ⟨_, _, e⟩ | ⟨_, _, e⟩ | ⟨_, _, e⟩ | ⟨_, e⟩
  · exact absurd (hc.trans_lt h) (by norm_num)
  · exact absurd (hc.trans_lt h) (by norm_num)
  · exact absurd (hc.trans_lt h) (by norm_num)
  · exact absurd (hc.trans_lt h) (by norm_num)
  · exact absurd (hc.trans_lt h) (by norm_num)
  · exact absurd (hc.trans_lt h) (by norm_num)
  · exact absurd (hc.trans_lt h) (by norm_num)
  all_goals rw [e]
  all_goals norm_num

theorem gpaQ_ub13 (q : ℚ) (h : q < 70) : gpaQ q ≤ 13/10 := by
  rcases gpaQ_cases q with ⟨hc, e⟩ | ⟨hc, _, e⟩ | ⟨hc, _, e⟩ | ⟨hc, _, e⟩ | ⟨hc, _, e⟩ |
    ⟨hc, _, e⟩ | ⟨hc, _, e⟩ | ⟨hc, _, e⟩ | ⟨_, _, e⟩ | ⟨_, _, e⟩ | ⟨_, e⟩
  · exact absurd (hc.trans_lt h) (by norm_num)
  · exact absurd (hc.trans_lt h) (by norm_num)
  · exact absurd (hc.trans_lt h) (by norm_num)
  · exact absurd (hc.trans_lt h) (by norm_num)
  · exact absurd (hc.trans_lt h) (by norm_num)
  · exact absurd (hc.trans_lt h) (by norm_num)
  · exact absurd (hc.trans_lt h) (by norm_num)
  · exact absurd (hc.trans_lt h) (by norm_num)
  all_goals rw [e]
  all_goals norm_num

theorem gpaQ_ub1 (q : ℚ) (h : q < 67) : gpaQ q ≤ 1 := by
  rcases gpaQ_cases q with ⟨hc, e⟩ | ⟨hc, _, e⟩ | ⟨hc, _, e⟩ | ⟨hc, _, e⟩ | ⟨hc, _, e⟩ |
    ⟨hc, _, e⟩ | ⟨hc, _, e⟩ | ⟨hc, _, e⟩ | ⟨hc, _, e⟩ | ⟨_, _, e⟩ | ⟨_, e⟩
  · exact absurd (hc.trans_lt h) (by norm_num)
  · exact absurd (hc.trans_lt h) (by norm_num)
  · exact absurd (hc.trans_lt h) (by norm_num)
  · exact absurd (hc.trans_lt h) (by norm_num)
  · exact absurd (hc.trans_lt h) (by norm_num)
  · exact absurd (hc.trans_lt h) (by norm_num)
  · exact absurd (hc.trans_lt h) (by norm_num)
  · exact absurd (hc.trans_lt h) (by norm_num)
  · exact absurd (hc.trans_lt h) (by norm_num)
  all_goals rw [e]
  all_goals norm_num

theorem gpaQ_ub0 (q : ℚ) (h : q < 63) : gpaQ q ≤ 0 := by
  rcases gpaQ_cases q with ⟨hc, e⟩ | ⟨hc, _, e⟩ | ⟨hc, _, e⟩ | ⟨hc, _, e⟩ | ⟨hc, _, e⟩ |
    ⟨hc, _, e⟩ | ⟨hc, _, e⟩ | ⟨hc, _, e⟩ | ⟨hc, _, e⟩ | ⟨hc, _, e⟩ | ⟨_, e⟩
  · exact absurd (hc.trans_lt h) (by norm_num)
  · exact absurd (hc.trans_lt h) (by norm_num)
  · exact absurd (hc.trans_lt h) (by norm_num)
  · exact absurd (hc.trans_lt h) (by norm_num)
  · exact absurd (hc.trans_lt h) (by norm_num)
  · exact absurd (hc.trans_lt h) (by norm_num)
  · exact absurd (hc.trans_lt h) (by norm_num)
  · exact absurd (hc.trans_lt h) (by norm_num)
  · exact absurd (hc.trans_lt h) (by norm_num)
  · exact absurd (hc.trans_lt h) (by norm_num)
  rw [e]

theorem gpaQ_mono (a b : ℚ) (hab : a ≤ b) : gpaQ a ≤ gpaQ b := by
  rcases gpaQ_cases b with ⟨hb, e⟩ | ⟨hb, hb2, e⟩ | ⟨hb, hb2, e⟩ | ⟨hb, hb2, e⟩ |
    ⟨hb, hb2, e⟩ | ⟨hb, hb2, e⟩ | ⟨hb, hb2, e⟩ | ⟨hb, hb2, e⟩ | ⟨hb, hb2, e⟩ |
    ⟨hb, hb2, e⟩ | ⟨hb, e⟩ <;> rw [e]
  · exact gpaQ_le_4 a
  · exact gpaQ_ub37 a (lt_of_le_of_lt hab hb2)
  · exact gpaQ_ub33 a (lt_of_le_of_lt hab hb2)
  · exact gpaQ_ub3 a (lt_of_le_of_lt hab hb2)
  · exact gpaQ_ub27 a (lt_of_le_of_lt hab hb2)
  · exact gpaQ_ub23 a (lt_of_le_of_lt hab hb2)
  · exact gpaQ_ub2 a (lt_of_le_of_lt hab hb2)
  · exact gpaQ_ub17 a (lt_of_le_of_lt hab hb2)
  · exact gpaQ_ub13 a (lt_of_le_of_lt hab hb2)
  · exact gpaQ_ub1 a (lt_of_le_of_lt hab hb2)
  · exact gpaQ_ub0 a (lt_of_le_of_lt hab hb)

theorem gpaQ_val37 (q : ℚ) (h1 : 90 ≤ q) (h2 : q < 93) : gpaQ q = 37/10 := by
  unfold gpaQ
  rw [if_neg (not_le.mpr h2), if_pos h1]

theorem gradeLookup_eq_some (s : List Char) (g : ℚ) (h : gradeLookup s = some g) :
    (s = "优".toList ∧ g = 95) ∨ (s = "良".toList ∧ g = 85) ∨
    (s = "中".toList ∧ g = 75) ∨ (s = "及格".toList ∧ g = 65) ∨
    (s = "不及格".toList ∧ g = 55) := by
  by_cases h1 : s = "优".toList
  · subst h1
    rw [show gradeLookup "优".toList = some (95:ℚ) from by decide] at h
    exact Or.inl ⟨rfl, (Option.some.injEq _ _ ▸ h).symm⟩
  by_cases h2 : s = "良".toList
  · subst h2
    rw [show gradeLookup "良".toList = some (85:ℚ) from by decide] at h
    exact Or.inr (Or.inl ⟨rfl, (Option.some.injEq _ _ ▸ h).symm⟩)
  by_cases h3 : s = "中".toList
  · subst h3
    rw [show gradeLookup "中".toList = some (75:ℚ) from by decide] at h
    exact Or.inr (Or.inr (Or.inl ⟨rfl, (Option.some.injEq _ _ ▸ h).symm⟩))
  by_cases h4 : s = "及格".toList
  · subst h4
    rw [show gradeLookup "及格".toList = some (65:ℚ) from by decide] at h
    exact Or.inr (Or.inr (Or.inr (Or.inl ⟨rfl, (Option.some.injEq _ _ ▸ h).symm⟩)))
  by_cases h5 : s = "不及格".toList
  · subst h5
    rw [show gradeLookup "不及格".toList = some (55:ℚ) from by decide] at h
    exact Or.inr (Or.inr (Or.inr (Or.inr ⟨rfl, (Option.some.injEq _ _ ▸ h).symm⟩)))
  · exfalso
    have hnone : gradeLookup s = none := by
      unfold gradeLookup GRADE_MAP
      rw [List.find?_cons_of_neg, List.find?_cons_of_neg, List.find?_cons_of_neg,
          List.find?_cons_of_neg, List.find?_cons_of_neg]
      · rfl
      · exact fun hh => h5 (beq_iff_eq.mp hh).symm
      · exact fun hh => h4 (beq_iff_eq.mp hh).symm
      · exact fun hh => h3 (beq_iff_eq.mp hh).symm
      · exact fun hh => h2 (beq_iff_eq.mp hh).symm
      · exact fun hh => h1 (beq_iff_eq.mp hh).symm
    rw [hnone] at h
    cases h

/-
Claim theorems.
-/

/-- C4: for every row whose authoritative score field `ZCJ`, after trimming
whitespace and excluding the case-insensitive sentinel tokens (empty string,
the pending marker, "n/a", "na"), parses as a plain number, the resolver
returns exactly that numeric value with `estimated = false`, without
consulting grade labels or component pairs. -/
theorem c4_numeric_authoritative (row : Row) (v : PyFloat)
    (h : parse_float_safe (row "ZCJ") = some v) :
    estimate_zcj_from_row row = (some v, false, .presentNumeric) := by
  unfold estimate_zcj_from_row
  rw [h]

/-- Concrete instance of C4: `ZCJ = " 88 "` resolves to 88, not estimated. -/
def c4row : Row := fun k => if k = "ZCJ" then some (.s " 88 ") else none

theorem c4_numeric_authoritative_witness :
    estimate_zcj_from_row c4row = (some (.finite 88), false, .presentNumeric) :=
  c4_numeric_authoritative c4row (.finite 88) (by decide)

/-- C5: for every row whose authoritative score field is a string whose
stripped form is one of the five grade labels, the resolver returns the
canonically mapped numeric value (95/85/75/65/55) with `estimated = false`. -/
theorem c5_grade_label (row : Row) (t : String) (g : ℚ)
    (hz : row "ZCJ" = some (JVal.s t))
    (hg : gradeLookup (pyStrip t.toList) = some g) :
    estimate_zcj_from_row row = (some (.finite g), false, .gradeLabel) := by
  have hnum : parse_float_safe (row "ZCJ") = none := by
    rw [hz]
    rcases gradeLookup_eq_some _ _ hg with ⟨hs, _⟩ | ⟨hs, _⟩ | ⟨hs, _⟩ | ⟨hs, _⟩ | ⟨hs, _⟩ <;>
      · show (if pyStrip t.toList = [] ∨ pyLower (pyStrip t.toList) ∈ SENTINELS then none
              else pyParseFloat (pyStrip t.toList)) = (none : Option PyFloat)
        rw [hs]
        decide
  unfold estimate_zcj_from_row
  rw [hnum, hz]
  show (match gradeLookup (pyStrip t.toList) with
        | some g0 => (some (PyFloat.finite g0), false, Reason.gradeLabel)
        | none => estimateComponents row) = (some (.finite g), false, .gradeLabel)
  rw [hg]

/-- Concrete instance of C5: `ZCJ = " 不及格 "` (the fail label) resolves
to 55, not estimated. -/
def c5row : Row := fun k => if k = "ZCJ" then some (.s " 不及格 ") else none

theorem c5_grade_label_witness :
    estimate_zcj_from_row c5row = (some (.finite 55), false, .gradeLabel) :=
  c5_grade_label c5row " 不及格 " 55 (by decide) (by decide)

/-- C6: `score_to_gpa` implements exactly the fixed breakpoint table
evaluated highest threshold first, and is right-continuous at each
breakpoint: the threshold value itself maps to the higher tier
(`score_to_gpa 93 = 4.0`), while any value strictly below it falls to the
next tier (`score_to_gpa 92.999 = 3.7`, and in general every score in
`[90, 93)` maps to 3.7). -/
theorem c6_gpa_breakpoint_table :
    (∀ s, score_to_gpa s = gpaFromTable s) ∧
    score_to_gpa (.finite 93) = 4 ∧
    score_to_gpa (.finite (92999/1000)) = 37/10 ∧
    (∀ q : ℚ, 90 ≤ q → q < 93 → score_to_gpa (.finite q) = 37/10) := by
  refine ⟨?_, (score_to_gpa_finite 93).trans (by unfold gpaQ; rw [if_pos (by norm_num : (93:ℚ) ≤ 93)]),
    (score_to_gpa_finite _).trans (gpaQ_val37 _ (by norm_num) (by norm_num)), ?_⟩
  · intro s
    cases s with
    | nan => rfl
    | inf => rfl
    | ninf => rfl
    | finite q =>
      rw [score_to_gpa_finite]
      unfold gpaQ
      by_cases h1 : (93:ℚ) ≤ q
      · simp [gpaFromTable, gpaTable, List.find?, PyFloat.le, h1]
      by_cases h2 : (90:ℚ) ≤ q
      · simp [gpaFromTable, gpaTable, List.find?, PyFloat.le, h1, h2]
      by_cases h3 : (87:ℚ) ≤ q
      · simp [gpaFromTable, gpaTable, List.find?, PyFloat.le, h1, h2, h3]
      by_cases h4 : (83:ℚ) ≤ q
      · simp [gpaFromTable, gpaTable, List.find?, PyFloat.le, h1, h2, h3, h4]
      by_cases h5 : (80:ℚ) ≤ q
      · simp [gpaFromTable, gpaTable, List.find?, PyFloat.le, h1, h2, h3, h4, h5]
      by_cases h6 : (77:ℚ) ≤ q
      · simp [gpaFromTable, gpaTable, List.find?, PyFloat.le, h1, h2, h3, h4, h5, h6]
      by_cases h7 : (73:ℚ) ≤ q
      · simp [gpaFromTable, gpaTable, List.find?, PyFloat.le, h1, h2, h3, h4, h5, h6,
              h7]
      by_cases h8 : (70:ℚ) ≤ q
      · simp [gpaFromTable, gpaTable, List.find?, PyFloat.le, h1, h2, h3, h4, h5, h6,
              h7, h8]
      by_cases h9 : (67:ℚ) ≤ q
      · simp [gpaFromTable, gpaTable, List.find?, PyFloat.le, h1, h2, h3, h4, h5, h6,
              h7, h8, h9]
      by_cases h10 : (63:ℚ) ≤ q
      · simp [gpaFromTable, gpaTable, List.find?, PyFloat.le, h1, h2, h3, h4, h5, h6,
              h7, h8, h9, h10]
      · simp [gpaFromTable, gpaTable, List.find?, PyFloat.le, h1, h2, h3, h4, h5, h6,
              h7, h8, h9, h10]
  · intro q hq1 hq2
    rw [score_to_gpa_finite]
    exact gpaQ_val37 q hq1 hq2

theorem c6_gpa_breakpoint_table_witness :
    score_to_gpa (.finite 91) = 37/10 :=
  c6_gpa_breakpoint_table.2.2.2 91 (by norm_num) (by norm_num)

/-- C10: `score_to_gpa` is total and monotone non-decreasing, and its result
always lies in the fixed eleven-element value set, even for inputs outside
the 0–100 range (including the non-finite floats). -/
theorem c10_gpa_monotone_range :
    (∀ a b : ℚ, a ≤ b → score_to_gpa (.finite a) ≤ score_to_gpa (.finite b)) ∧
    (∀ s : PyFloat, score_to_gpa s ∈ gpaValues) := by
  constructor
  · intro a b hab
    rw [score_to_gpa_finite, score_to_gpa_finite]
    exact gpaQ_mono a b hab
  · intro s
    cases s with
    | finite q =>
      rw [score_to_gpa_finite]
      rcases gpaQ_cases q with ⟨_, e⟩ | ⟨_, _, e⟩ | ⟨_, _, e⟩ | ⟨_, _, e⟩ | ⟨_, _, e⟩ |
        ⟨_, _, e⟩ | ⟨_, _, e⟩ | ⟨_, _, e⟩ | ⟨_, _, e⟩ | ⟨_, _, e⟩ | ⟨_, e⟩ <;>
        rw [e] <;> norm_num [gpaValues]
    | nan =>
      rw [show score_to_gpa PyFloat.nan = 0 from rfl]
      norm_num [gpaValues]
    | inf =>
      rw [show score_to_gpa PyFloat.inf = 4 from rfl]
      norm_num [gpaValues]
    | ninf =>
      rw [show score_to_gpa PyFloat.ninf = 0 from rfl]
      norm_num [gpaValues]

theorem c10_gpa_monotone_range_witness :
    score_to_gpa (.finite 80) ≤ score_to_gpa (.finite 90) :=
  c10_gpa_monotone_range.1 80 90 (by norm_num)

/-- C7: `weighted_avg` yields the undefined marker (`None`) exactly when the
total credit is the float zero (in particular on the empty collection), and
on a singleton collection holding one course of finite credit `c > 0` and
finite score `s` it returns exactly `s`. -/
theorem c7_weighted_avg :
    (∀ cs, creditSum cs ≠ .finite 0 →
      weighted_avg cs = some (PyFloat.div (scoreCreditSum cs) (creditSum cs))) ∧
    (∀ cs, weighted_avg cs = none ↔ creditSum cs = .finite 0) ∧
    weighted_avg [] = none ∧
    (∀ (nm ty : Option JVal) (es : Bool) (rs : Reason) (s c : ℚ), 0 < c →
      weighted_avg [⟨nm, ty, .finite s, .finite c, es, rs⟩] = some (.finite s)) := by
  refine ⟨?_, ?_, rfl, ?_⟩
  · intro cs h
    unfold weighted_avg
    rw [if_pos (by simp [PyFloat.truthy, h])]
  · intro cs
    unfold weighted_avg PyFloat.truthy
    by_cases h : creditSum cs = .finite 0
    · simp [h]
    · simp [h]
  · intro nm ty es rs s c hc
    have hc0 : c ≠ 0 := ne_of_gt hc
    unfold weighted_avg creditSum scoreCreditSum
    simp [PyFloat.truthy, PyFloat.div, hc0, mul_div_cancel_right₀ s hc0]

theorem c7_weighted_avg_witness :
    weighted_avg [⟨none, none, .finite 88, .finite 3, false, .presentNumeric⟩] =
      some (.finite 88) :=
  c7_weighted_avg.2.2.2 none none false .presentNumeric 88 3 (by norm_num)

/-- The grade-label branch of the resolver does not fire: either the
authoritative field is not a string, or its stripped form is not a grade
label. -/
def notGradeLabel (x : Option JVal) : Bool :=
  match x with
  | some (.s t) => gradeLookup (pyStrip t.toList) == none
  | _ => true

theorem estimate_eq_components (row : Row)
    (hnum : parse_float_safe (row "ZCJ") = none)
    (hgrade : notGradeLabel (row "ZCJ") = true) :
    estimate_zcj_from_row row = estimateComponents row := by
  unfold estimate_zcj_from_row
  rw [hnum]
  rcases hz : row "ZCJ" with _ | v
  · rfl
  · cases v with
    | n w => rfl
    | s t =>
      rw [hz] at hgrade
      have hgl : gradeLookup (pyStrip t.toList) = none := by
        simpa [notGradeLabel] using hgrade
      show (match gradeLookup (pyStrip t.toList) with
            | some g0 => (some (PyFloat.finite g0), false, Reason.gradeLabel)
            | none => estimateComponents row) = estimateComponents row
      rw [hgl]

theorem compScan_missing (row : Row) :
    ∀ (l : List (String × String)) (wsum wtot : PyFloat) (hav : Bool),
      (∃ p ∈ l, (parse_float_safe (row p.1)).isSome = true ∧
        parse_float_safe (row p.2) = none) →
      ∃ sk wk, (sk, wk) ∈ l ∧ (parse_float_safe (row sk)).isSome = true ∧
        parse_float_safe (row wk) = none ∧
        compScan row l wsum wtot hav = .missing sk wk := by
  intro l
  induction l with
  | nil =>
    intro _ _ _ h
    rcases h with ⟨p, hp, _⟩
    cases hp
  | cons pr rest ih =>
    obtain ⟨a, b⟩ := pr
    intro wsum wtot hav h
    rcases hs : parse_float_safe (row a) with _ | sv
    · have hrest : ∃ p ∈ rest, (parse_float_safe (row p.1)).isSome = true ∧
          parse_float_safe (row p.2) = none := by
        rcases h with ⟨p, hp, hps, hpw⟩
        rcases List.mem_cons.mp hp with rfl | hmem
        · rw [hs] at hps; cases hps
        · exact ⟨p, hmem, hps, hpw⟩
      obtain ⟨sk, wk, hmem, h1, h2, h3⟩ := ih wsum wtot hav hrest
      refine ⟨sk, wk, List.mem_cons_of_mem _ hmem, h1, h2, ?_⟩
      simp only [compScan, hs]
      exact h3
    · rcases hw : parse_float_safe (row b) with _ | wv
      · refine ⟨a, b, List.mem_cons_self _ _, by rw [hs]; rfl, hw, ?_⟩
        simp only [compScan, hs, hw]
      · have hrest : ∃ p ∈ rest, (parse_float_safe (row p.1)).isSome = true ∧
            parse_float_safe (row p.2) = none := by
          rcases h with ⟨p, hp, hps, hpw⟩
          rcases List.mem_cons.mp hp with rfl | hmem
          · rw [hw] at hpw; cases hpw
          · exact ⟨p, hmem, hps, hpw⟩
        obtain ⟨sk, wk, hmem, h1, h2, h3⟩ :=
          ih (wsum + sv * wv) (wtot + wv) true hrest
        refine ⟨sk, wk, List.mem_cons_of_mem _ hmem, h1, h2, ?_⟩
        simp only [compScan, hs, hw]
        exact h3

theorem compScan_done (row : Row) :
    ∀ (l : List (String × String)) (wsum wtot : PyFloat) (hav : Bool),
      (∀ p ∈ l, (parse_float_safe (row p.1)).isSome = true →
        (parse_float_safe (row p.2)).isSome = true) →
      compScan row l wsum wtot hav = .done
        (specWeightedSumFrom row wsum l) (specTotalWeightFrom row wtot l)
        (hav || l.any fun p => (parse_float_safe (row p.1)).isSome) := by
  intro l
  induction l with
  | nil =>
    intro wsum wtot hav _
    simp [compScan, specWeightedSumFrom, specTotalWeightFrom]
  | cons pr rest ih =>
    obtain ⟨a, b⟩ := pr
    intro wsum wtot hav hcomp
    rcases hs : parse_float_safe (row a) with _ | sv
    · simp only [compScan, specWeightedSumFrom, specTotalWeightFrom,
        List.foldl_cons, List.any_cons, hs, Option.isSome_none, Bool.false_or]
      exact ih wsum wtot hav fun p hp hps => hcomp p (List.mem_cons_of_mem _ hp) hps
    · rcases hw : parse_float_safe (row b) with _ | wv
      · have := hcomp (a, b) (List.mem_cons_self _ _) (by rw [hs]; rfl)
        rw [hw] at this
        cases this
      · simp only [compScan, specWeightedSumFrom, specTotalWeightFrom,
          List.foldl_cons, List.any_cons, hs, hw, Option.isSome_some,
          Bool.true_or, Bool.or_true]
        have := ih (wsum + sv * wv) (wtot + wv) true
          (fun p hp hps => hcomp p (List.mem_cons_of_mem _ hp) hps)
        rw [this]
        simp only [specWeightedSumFrom, specTotalWeightFrom, Bool.true_or,
          Bool.or_true]

/-- C1: for every row whose authoritative score field neither parses as a
number nor matches a grade label, if some component score field among the
three named pairs parses as numeric but its companion weight field does not,
the resolver returns `(None, estimated = true, a missing-weight reason)`,
regardless of whether the other component pairs are complete and valid. -/
theorem c1_missing_weight_aborts (row : Row)
    (hnum : parse_float_safe (row "ZCJ") = none)
    (hgrade : notGradeLabel (row "ZCJ") = true)
    (hpair : ∃ p ∈ comp_names, (parse_float_safe (row p.1)).isSome = true ∧
      parse_float_safe (row p.2) = none) :
    ∃ sk wk, (sk, wk) ∈ comp_names ∧
      estimate_zcj_from_row row = (none, true, .missingWeight wk sk) := by
  obtain ⟨sk, wk, hmem, _, _, hscan⟩ :=
    compScan_missing row comp_names (.finite 0) (.finite 0) false hpair
  refine ⟨sk, wk, hmem, ?_⟩
  rw [estimate_eq_components row hnum hgrade]
  unfold estimateComponents
  rw [hscan]

/-- Concrete instance of C1: the final-exam score is present but its weight
is absent, while the in-class pair is complete; the row is still
unresolvable. -/
def c1row : Row := fun k =>
  if k = "QMCJ" then some (.s "90")
  else if k = "PSCJ" then some (.s "80")
  else if k = "PSCJXS" then some (.s "20")
  else none

theorem c1_missing_weight_aborts_witness :
    ∃ sk wk, (sk, wk) ∈ comp_names ∧
      estimate_zcj_from_row c1row = (none, true, .missingWeight wk sk) :=
  c1_missing_weight_aborts c1row (by decide) (by decide)
    ⟨("QMCJ", "QMCJXS"), by decide, by decide, by decide⟩

theorem le_zero_false_of_zero_lt (x : PyFloat)
    (h : PyFloat.lt (.finite 0) x = true) :
    PyFloat.le x (.finite 0) = false := by
  cases x with
  | finite q =>
    simp only [PyFloat.lt, decide_eq_true_eq] at h
    simp only [PyFloat.le, decide_eq_false_iff_not]
    linarith
  | nan => cases h
  | inf => rfl
  | ninf => cases h

/-- C2: for every row whose authoritative score is absent/unparseable and not
a grade label, where at least one component pair is present and fully
parseable and no present component score lacks a parseable weight, the
resolver returns the normalized weighted mean `weighted_sum / total_weight`
with `estimated = true`, provided `total_weight > 0`; in particular when the
weights sum to `W ≠ 100` the result is `weighted_sum / W`, not
`weighted_sum / 100`. -/
theorem c2_component_normalized_mean (row : Row)
    (hnum : parse_float_safe (row "ZCJ") = none)
    (hgrade : notGradeLabel (row "ZCJ") = true)
    (hcomp : ∀ p ∈ comp_names, (parse_float_safe (row p.1)).isSome = true →
      (parse_float_safe (row p.2)).isSome = true)
    (hany : ∃ p ∈ comp_names, (parse_float_safe (row p.1)).isSome = true)
    (hpos : PyFloat.lt (.finite 0) (specTotalWeight row) = true) :
    estimate_zcj_from_row row =
      (some (PyFloat.div (specWeightedSum row) (specTotalWeight row)), true,
       .estimated (specTotalWeight row)) := by
  have hle := le_zero_false_of_zero_lt _ hpos
  rw [estimate_eq_components row hnum hgrade]
  unfold estimateComponents
  rw [compScan_done row comp_names (.finite 0) (.finite 0) false hcomp]
  have hany2 : (false || comp_names.any fun p =>
      (parse_float_safe (row p.1)).isSome) = true := by
    simp only [Bool.false_or, List.any_eq_true]
    exact hany
  rw [hany2]
  show (if (true = false) then (none, true, Reason.noComponents)
        else if PyFloat.le (specTotalWeight row) (.finite 0)
        then (none, true, Reason.zeroWeight)
        else (some (PyFloat.div (specWeightedSum row) (specTotalWeight row)),
              true, Reason.estimated (specTotalWeight row))) = _
  rw [if_neg (by simp), hle]
  simp

/-- Concrete instance of C2: weights 30 and 20 sum to `W = 50 ≠ 100`, and the
estimate is `(90*30 + 80*20)/50 = 86`, not `4300/100`. -/
def c2row : Row := fun k =>
  if k = "QMCJ" then some (.s "90")
  else if k = "QMCJXS" then some (.s "30")
  else if k = "PSCJ" then some (.s "80")
  else if k = "PSCJXS" then some (.s "20")
  else none

theorem c2_component_normalized_mean_witness :
    estimate_zcj_from_row c2row = (some (.finite 86), true, .estimated (.finite 50)) := by
  have hqm : parse_float_safe (c2row "QMCJ") = some (.finite 90) := by decide
  have hqmx : parse_float_safe (c2row "QMCJXS") = some (.finite 30) := by decide
  have hps : parse_float_safe (c2row "PSCJ") = some (.finite 80) := by decide
  have hpsx : parse_float_safe (c2row "PSCJXS") = some (.finite 20) := by decide
  have hqz : parse_float_safe (c2row "QZCJ") = none := by decide
  have hsum : specWeightedSum c2row = .finite 4300 := by
    simp only [specWeightedSum, specWeightedSumFrom, comp_names, List.foldl_cons,
      List.foldl_nil, hqm, hqmx, hps, hpsx, hqz, PyFloat.finite_mul,
      PyFloat.finite_add]
    norm_num
  have htot : specTotalWeight c2row = .finite 50 := by
    simp only [specTotalWeight, specTotalWeightFrom, comp_names, List.foldl_cons,
      List.foldl_nil, hqm, hqmx, hps, hpsx, hqz, PyFloat.finite_add]
    norm_num
  have h := c2_component_normalized_mean c2row (by decide) (by decide)
    (by decide) ⟨("QMCJ", "QMCJXS"), by decide, by decide⟩
    (by rw [htot]; norm_num [PyFloat.lt])
  rw [h, hsum, htot]
  norm_num [PyFloat.div]

/-- C3 (amended): a row materializes into the Official course set iff its
category is one of the two enrollment labels, `float()` on its credit field
succeeds with a value `v` for which `v <= 0` is false under float comparison
(so a positive value — or NaN, which passes the check), and the score
resolver returns a non-null score.  The claim's strict form, with
"credit parses to a value strictly greater than 0", fails on a NaN credit;
see the counterexample. -/
theorem c3_official_membership_iff (r : Row) :
    extract_official_courses [r] ≠ [] ↔ officialSpecAmended r := by
  have hfm : extract_official_courses [r] ≠ [] ↔
      (officialOfRow r).isSome = true := by
    unfold extract_official_courses
    cases h : officialOfRow r <;> simp [List.filterMap_cons, h]
  rw [hfm]
  unfold officialOfRow officialSpecAmended
  by_cases hcat : (r "KCXZDM_DISPLAY" = some (.s "必修") ∨
      r "KCXZDM_DISPLAY" = some (.s "限选"))
  · rw [if_pos hcat]
    rcases hxf : pyFloatOfValue (r "XF") with _ | credit
    · simp [hcat, hxf]
    · by_cases hle : PyFloat.le credit (.finite 0) = true
      · simp [hcat, hxf, hle]
      · rw [Bool.not_eq_true] at hle
        rcases hest : estimate_zcj_from_row r with ⟨osc, est, msg⟩
        rcases osc with _ | sc
        · simp [hcat, hxf, hle, hest]
        · simp [hcat, hxf, hle, hest]
  · rw [if_neg hcat]
    simp [hcat]

/-- The counterexample row for C3: required category, credit field `"nan"`,
numeric score.  `float("nan")` succeeds and `nan <= 0` is false, so the row
materializes, yet its credit is not strictly greater than 0. -/
def c3row : Row := fun k =>
  if k = "KCXZDM_DISPLAY" then some (.s "必修")
  else if k = "XF" then some (.s "nan")
  else if k = "ZCJ" then some (.s "80")
  else none

/-- C3 as frozen is false: this row is in the Official set although its
credit field does not parse to a value strictly greater than 0 (it parses to
NaN). -/
theorem c3_official_membership_counterexample :
    extract_official_courses [c3row] ≠ [] ∧ ¬ officialSpecStrict c3row := by
  constructor
  · decide
  · rintro ⟨-, ⟨v, hv, hlt⟩, -⟩
    rw [show pyFloatOfValue (c3row "XF") = some PyFloat.nan from by decide] at hv
    injection hv with he
    rw [← he] at hlt
    exact absurd hlt (by decide)

/-- Concrete instance of the amended C3: a restricted-elective row with
credit 2 and numeric score 95 is in the Official set. -/
def c3wrow : Row := fun k =>
  if k = "KCXZDM_DISPLAY" then some (.s "限选")
  else if k = "XF" then some (.s "2")
  else if k = "ZCJ" then some (.s "95")
  else none

theorem c3_official_membership_iff_witness :
    extract_official_courses [c3wrow] ≠ [] :=
  (c3_official_membership_iff c3wrow).mpr
    ⟨Or.inr (by decide), ⟨.finite 2, by decide, by decide⟩, by decide⟩

/-- C9 (amended): every course produced by `extract_official_courses` has a
credit for which `credit <= 0` is false under float comparison (hence every
finite credit is positive, but a NaN credit is possible), and a score that
came from a non-null resolver result (`None` never survives); however
non-finite scores and credits (NaN / infinities) can survive when the
corresponding fields parse to non-finite floats, so the claim's "score is a
finite number, no NaN" fails; see the counterexample. -/
theorem c9_resolved_course_invariant (rows : List Row) (c : Course)
    (hc : c ∈ extract_official_courses rows) :
    PyFloat.le c.credit (.finite 0) = false ∧
    ∃ r ∈ rows, (estimate_zcj_from_row r).1 = some c.score ∧
      pyFloatOfValue (r "XF") = some c.credit := by
  rw [extract_official_courses, List.mem_filterMap] at hc
  obtain ⟨r, hr, hof⟩ := hc
  unfold officialOfRow at hof
  by_cases hcat : (r "KCXZDM_DISPLAY" = some (.s "必修") ∨
      r "KCXZDM_DISPLAY" = some (.s "限选"))
  case neg => rw [if_neg hcat] at hof; cases hof
  rw [if_pos hcat] at hof
  rcases hxf : pyFloatOfValue (r "XF") with _ | credit
  · simp only [hxf] at hof; cases hof
  simp only [hxf] at hof
  by_cases hle : PyFloat.le credit (.finite 0) = true
  · rw [if_pos hle] at hof; cases hof
  rw [Bool.not_eq_true] at hle
  rw [if_neg (by simp [hle])] at hof
  rcases hest : estimate_zcj_from_row r with ⟨osc, est, msg⟩
  simp only [hest] at hof
  rcases osc with _ | sc
  · cases hof
  · injection hof with he
    subst he
    exact ⟨hle, r, hr, by rw [hest], hxf⟩

/-- The counterexample row for C9: required category, credit field `"nan"`,
authoritative score field `"nan"`.  Both parse to the float NaN and survive
into the Official set. -/
def c9row : Row := fun k =>
  if k = "KCXZDM_DISPLAY" then some (.s "必修")
  else if k = "XF" then some (.s "nan")
  else if k = "ZCJ" then some (.s "nan")
  else none

/-- C9 as frozen is false: this input row materializes a ResolvedCourse whose
score and credit are both NaN, so a NaN does survive into the Official set. -/
theorem c9_resolved_course_counterexample :
    (extract_official_courses [c9row]).map Course.score = [PyFloat.nan] ∧
    (extract_official_courses [c9row]).map Course.credit = [PyFloat.nan] := by
  decide

/-- Concrete instance of the amended C9, at a well-formed row. -/
def c9wrow : Row := fun k =>
  if k = "KCXZDM_DISPLAY" then some (.s "必修")
  else if k = "XF" then some (.s "3")
  else if k = "ZCJ" then some (.s "90")
  else none

theorem c9_resolved_course_invariant_witness :
    PyFloat.le (Course.mk none (some (.s "必修")) (.finite 90) (.finite 3)
      false .presentNumeric).credit (.finite 0) = false ∧
    ∃ r ∈ [c9wrow], (estimate_zcj_from_row r).1 =
        some (Course.mk none (some (.s "必修")) (.finite 90) (.finite 3)
          false .presentNumeric).score ∧
      pyFloatOfValue (r "XF") =
        some (Course.mk none (some (.s "必修")) (.finite 90) (.finite 3)
          false .presentNumeric).credit :=
  c9_resolved_course_invariant [c9wrow] _ (by decide)

theorem net_cons_open (l : List Char) : net ('\x7b' :: l) = 1 + net l := by
  simp [net]

theorem net_cons_close (l : List Char) : net ('\x7d' :: l) = -1 + net l := by
  simp [net]

theorem net_cons_other (c : Char) (l : List Char) (h1 : c ≠ '\x7b')
    (h2 : c ≠ '\x7d') : net (c :: l) = net l := by
  simp [net, h1, h2]

theorem extractStep_other (text : List Char) (st : EState) (i : ℕ) (ch : Char)
    (h1 : ch ≠ '\x7b') (h2 : ch ≠ '\x7d') : extractStep text st (i, ch) = st := by
  simp [extractStep, h1, h2]

/-- Scanning brace-free text leaves the state unchanged. -/
theorem scanSkip (text : List Char) :
    ∀ (l : List Char) (n : ℕ) (st : EState), BraceFree l →
      (l.enumFrom n).foldl (extractStep text) st = st := by
  intro l
  induction l with
  | nil => intro n st _; rfl
  | cons c l ih =>
    intro n st hbf
    have hc := hbf c (List.mem_cons_self _ _)
    show (((n, c) :: l.enumFrom (n + 1)).foldl (extractStep text) st) = st
    rw [List.foldl_cons, extractStep_other text st n c hc.1 hc.2]
    exact ih (n + 1) st fun x hx => hbf x (List.mem_cons_of_mem _ hx)

/-- Scanning the interior of a block: while an object is open (depth ≥ 1,
start recorded) and the remaining characters bring the depth to 0 exactly at
their last character, the scan emits the slice from the recorded start
through that last character and resets. -/
theorem scanBlockAux (text : List Char) :
    ∀ (m : List Char) (j s0 : ℕ) (objs : List (List Char)) (d : ℤ),
      1 ≤ d →
      (∀ p, p <+: m → p ≠ m → 1 ≤ d + net p) →
      d + net m = 0 →
      (m.enumFrom j).foldl (extractStep text) ⟨objs, d, some s0⟩ =
        ⟨objs ++ [(text.drop s0).take (j + m.length - s0)], 0, none⟩ := by
  intro m
  induction m with
  | nil =>
    intro j s0 objs d hd _ htot
    simp only [net] at htot
    omega
  | cons c m ih =>
    intro j s0 objs d hd hpre htot
    show (((j, c) :: m.enumFrom (j + 1)).foldl (extractStep text)
      ⟨objs, d, some s0⟩) = _
    rw [List.foldl_cons]
    by_cases hc1 : c = '\x7b'
    · subst hc1
      have hstep : extractStep text ⟨objs, d, some s0⟩ (j, '\x7b') =
          ⟨objs, d + 1, some s0⟩ := by
        have hd0 : ¬ ((⟨objs, d, some s0⟩ : EState).brace = 0) := by
          show ¬ (d = 0); omega
        simp [extractStep, hd0]
      rw [hstep]
      rw [net_cons_open] at htot
      have hres := ih (j + 1) s0 objs (d + 1) (by omega)
        (fun p hp hne => by
          obtain ⟨tl, htl⟩ := hp
          have hp2 : ('\x7b' :: p) <+: ('\x7b' :: m) := ⟨tl, by rw [← htl]; rfl⟩
          have hne2 : ('\x7b' :: p) ≠ ('\x7b' :: m) := by
            intro hh; exact hne (by injection hh)
          have := hpre ('\x7b' :: p) hp2 hne2
          rw [net_cons_open] at this
          omega)
        (by omega)
      rw [hres]
      rw [show j + ('\x7b' :: m).length - s0 = j + 1 + m.length - s0 from by
        simp [List.length_cons]; omega]
    · by_cases hc2 : c = '\x7d'
      · subst hc2
        by_cases hd1 : d = 1
        · subst hd1
          rcases m with _ | ⟨c2, m2⟩
          · have hstep : extractStep text ⟨objs, 1, some s0⟩ (j, '\x7d') =
                ⟨objs ++ [(text.drop s0).take (j + 1 - s0)], 0, none⟩ := by
              simp [extractStep]
            rw [hstep]
            rfl
          · exfalso
            have hp : ['\x7d'] <+: ('\x7d' :: c2 :: m2) := ⟨c2 :: m2, rfl⟩
            have hne : ['\x7d'] ≠ ('\x7d' :: c2 :: m2) := by simp
            have := hpre ['\x7d'] hp hne
            rw [net_cons_close] at this
            simp only [net] at this
            omega
        · have hstep : extractStep text ⟨objs, d, some s0⟩ (j, '\x7d') =
              ⟨objs, d - 1, some s0⟩ := by
            have hd0 : ¬ ((⟨objs, d, some s0⟩ : EState).brace - 1 = 0) := by
              show ¬ (d - 1 = 0); omega
            simp [extractStep, hd0]
          rw [hstep]
          rw [net_cons_close] at htot
          have hd2 : 1 ≤ d - 1 := by
            rcases m with _ | ⟨c2, m2⟩
            · simp only [net] at htot; omega
            · have hp : ['\x7d'] <+: ('\x7d' :: c2 :: m2) := ⟨c2 :: m2, rfl⟩
              have hne : ['\x7d'] ≠ ('\x7d' :: c2 :: m2) := by simp
              have := hpre ['\x7d'] hp hne
              rw [net_cons_close] at this
              simp only [net] at this
              omega
          have hres := ih (j + 1) s0 objs (d - 1) hd2
            (fun p hp hne => by
              obtain ⟨tl, htl⟩ := hp
              have hp2 : ('\x7d' :: p) <+: ('\x7d' :: m) := ⟨tl, by rw [← htl]; rfl⟩
              have hne2 : ('\x7d' :: p) ≠ ('\x7d' :: m) := by
                intro hh; exact hne (by injection hh)
              have := hpre ('\x7d' :: p) hp2 hne2
              rw [net_cons_close] at this
              omega)
            (by omega)
          rw [hres]
          rw [show j + ('\x7d' :: m).length - s0 = j + 1 + m.length - s0 from by
            simp [List.length_cons]; omega]
      · rw [extractStep_other text _ j c hc1 hc2]
        rw [net_cons_other c m hc1 hc2] at htot
        have hres := ih (j + 1) s0 objs d hd
          (fun p hp hne => by
            obtain ⟨tl, htl⟩ := hp
            have hp2 : (c :: p) <+: (c :: m) := ⟨tl, by rw [← htl]; rfl⟩
            have hne2 : (c :: p) ≠ (c :: m) := by
              intro hh; exact hne (by injection hh)
            have := hpre (c :: p) hp2 hne2
            rw [net_cons_other c p hc1 hc2] at this
            omega)
          htot
        rw [hres]
        rw [show j + (c :: m).length - s0 = j + 1 + m.length - s0 from by
          simp [List.length_cons]; omega]

/-- Scanning a balanced block from a clean state appends exactly the slice of
the text covering the block and returns to the clean state. -/
theorem scanBlock (text t : List Char) (ht : IsBlock t) (k : ℕ)
    (objs : List (List Char)) :
    (t.enumFrom k).foldl (extractStep text) ⟨objs, 0, none⟩ =
      ⟨objs ++ [(text.drop k).take t.length], 0, none⟩ := by
  obtain ⟨hhead, hnet, hpre⟩ := ht
  rcases t with _ | ⟨c, m⟩
  · exact absurd hhead (by simp)
  · have hc : c = '\x7b' := by simpa using hhead
    subst hc
    show (((k, '\x7b') :: m.enumFrom (k + 1)).foldl (extractStep text)
      ⟨objs, 0, none⟩) = _
    rw [List.foldl_cons]
    have hstep : extractStep text ⟨objs, 0, none⟩ (k, '\x7b') =
        ⟨objs, 1, some k⟩ := by
      simp [extractStep]
    rw [hstep]
    rw [net_cons_open] at hnet
    have haux := scanBlockAux text m (k + 1) k objs 1 (by norm_num)
      (fun p hp hne => by
        obtain ⟨tl, htl⟩ := hp
        have hp2 : ('\x7b' :: p) ∈ ('\x7b' :: m).inits :=
          (List.mem_inits _ _).mpr ⟨tl, by rw [← htl]; rfl⟩
        have hne2 : ('\x7b' :: p) ≠ ('\x7b' :: m) := by
          intro hh; exact hne (by injection hh)
        have := hpre ('\x7b' :: p) hp2 (by simp) hne2
        rw [net_cons_open] at this
        omega)
      (by omega)
    rw [haux]
    rw [show k + 1 + m.length - k = ('\x7b' :: m).length from by
      simp [List.length_cons]; omega]

/-- C8 (amended): for any two balanced top-level brace blocks — valid JSON
object texts none of whose string literals contain a brace character —
concatenated with arbitrary brace-free text before, between and after them,
the extractor yields exactly the two blocks, in order, nested braces
included verbatim.  The claim's original form, quantifying over arbitrary
valid JSON object texts, fails when a string literal contains a brace,
because the depth scanner counts braces inside string literals; see the
counterexample. -/
theorem c8_extract_roundtrip (a t1 b t2 c : List Char)
    (h1 : IsBlock t1) (h2 : IsBlock t2)
    (ha : BraceFree a) (hb : BraceFree b) (hc : BraceFree c) :
    extract_json_objects (a ++ t1 ++ b ++ t2 ++ c) = [t1, t2] := by
  have hs1 : ((a ++ t1 ++ b ++ t2 ++ c).drop (0 + a.length)).take t1.length
      = t1 := by
    rw [Nat.zero_add]
    rw [show a ++ t1 ++ b ++ t2 ++ c = a ++ (t1 ++ (b ++ (t2 ++ c))) from by
      simp [List.append_assoc]]
    rw [List.drop_left]
    exact List.take_left _ _
  have hs2 : ((a ++ t1 ++ b ++ t2 ++ c).drop
      (0 + (a ++ t1 ++ b).length)).take t2.length = t2 := by
    rw [Nat.zero_add]
    rw [show a ++ t1 ++ b ++ t2 ++ c = (a ++ t1 ++ b) ++ (t2 ++ c) from by
      simp [List.append_assoc]]
    rw [List.drop_left]
    exact List.take_left _ _
  unfold extract_json_objects
  rw [List.enum_eq_enumFrom]
  rw [List.enumFrom_append, List.enumFrom_append, List.enumFrom_append,
    List.enumFrom_append]
  rw [List.foldl_append, List.foldl_append, List.foldl_append,
    List.foldl_append]
  rw [scanSkip _ a 0 _ ha]
  rw [scanBlock _ t1 h1 (0 + a.length) []]
  rw [scanSkip _ b _ _ hb]
  rw [scanBlock _ t2 h2 _ _]
  rw [scanSkip _ c _ _ hc]
  show ([] ++ [((a ++ t1 ++ b ++ t2 ++ c).drop (0 + a.length)).take t1.length])
      ++ [((a ++ t1 ++ b ++ t2 ++ c).drop
        (0 + (a ++ t1 ++ b).length)).take t2.length] = [t1, t2]
  rw [hs1, hs2]
  rfl

/-- First counterexample text for C8: the valid JSON object text with a
closing brace inside its string literal. -/
def c8bad1 : List Char := ['\x7b', '"', 'a', '"', ':', '"', '\x7d', '"', '\x7d']

/-- Second counterexample text for C8: the empty JSON object text. -/
def c8bad2 : List Char := ['\x7b', '\x7d']

/-- C8 as frozen is false: `c8bad1` and `c8bad2` are both individually valid
JSON object texts (with no interspersed text), yet the extractor yields a
single span — the prefix of `c8bad1` cut at the brace inside its string
literal — rather than the two original blocks. -/
theorem c8_extract_counterexample :
    extract_json_objects (c8bad1 ++ c8bad2) =
      [['\x7b', '"', 'a', '"', ':', '"', '\x7d']] ∧
    extract_json_objects (c8bad1 ++ c8bad2) ≠ [c8bad1, c8bad2] := by
  decide

/-- Concrete instance of the amended C8. -/
def c8seg1 : List Char := ['x']

/-- Concrete block for the amended C8 witness. -/
def c8blk1 : List Char := ['\x7b', 'k', '\x7d']

/-- Concrete interspersed segment for the amended C8 witness. -/
def c8seg2 : List Char := [' ']

/-- Concrete second block for the amended C8 witness. -/
def c8blk2 : List Char := ['\x7b', '\x7d']

/-- Concrete trailing segment for the amended C8 witness. -/
def c8seg3 : List Char := ['!']

theorem c8_extract_roundtrip_witness :
    extract_json_objects (c8seg1 ++ c8blk1 ++ c8seg2 ++ c8blk2 ++ c8seg3) =
      [c8blk1, c8blk2] :=
  c8_extract_roundtrip c8seg1 c8blk1 c8seg2 c8blk2 c8seg3
    (by decide) (by decide) (by decide) (by decide) (by decide)
